import Mathlib

/-!
Verification development for the raisemyhand classroom Q&A service.

This file shallowly embeds the concurrency-sensitive core of the
repository — the question sequencer (`routes_questions.create_question`,
`routes_questions.toggle_vote`) and the realtime broadcaster
(`main.ConnectionManager`) — and proves or refutes the specified
properties about them.  Definitions are translated from the Python
source; where a claim compares the source against the specification's
words (the row-lock refinement for question numbering), a second,
clearly named model following the spec's words is given alongside.
-/

namespace RaiseMyHand

/-! ## Question sequencer: data and helpers

A meeting's question table is abstracted to the list of its
`question_number` values (the only column the sequencing logic reads).
`maxNumber` embeds `db.query(func.max(Question.question_number))...
.scalar()` combined with Python's `(max_number or 0)`: the maximum of
the numbers present, `0` when the meeting has no questions. -/

def maxNumber (table : List Nat) : Nat :=
  table.foldr max 0

/-- The exception-message test from `routes_questions.py` line 154:
`"unique constraint" in str(e).lower() or "duplicate" in str(e).lower()`.
`leadsWith n h` decides whether `n` is an initial segment of `h`. -/
def leadsWith : List Char → List Char → Bool
  | [], _ => true
  | _ :: _, [] => false
  | a :: ns, b :: hs => a == b && leadsWith ns hs

/-- Predicate `hasSub hay needle` decides whether `needle` occurs contiguously in
`hay` (Python's `needle in hay`). -/
def hasSub (hay needle : List Char) : Bool :=
  match hay with
  | [] => needle.isEmpty
  | _ :: t => leadsWith needle hay || hasSub t needle

/-- Lowercasing, `str(e).lower()`, applied to an exception message. -/
def lowerChars (s : String) : List Char :=
  s.toList.map Char.toLower

/-- The substring test the retry handler in `create_question` applies to
the caught exception's message. -/
def isUniqueViolation (msg : String) : Bool :=
  hasSub (lowerChars msg) "unique constraint".toList
    || hasSub (lowerChars msg) "duplicate".toList

/-- Errors `create_question` surfaces: HTTP 500 "Failed to create
question due to concurrent submissions" (after exhausting retries on
unique-constraint violations) and the generic HTTP 500 for any other
commit exception. -/
inductive CreateError where
  | concurrencyExhausted
  | generic
deriving DecidableEq

/-- The retry loop of `routes_questions.create_question` (lines 78-162).
`visible k` is the committed question-number table the plain
(non-locking) `SELECT max` observes at attempt `k`; `commitErr k` is the
outcome of attempt `k`'s `db.commit()` — `none` for success, `some msg`
for an exception with message `msg`.  The returned list is the set of
rows this call left committed: `db.rollback()` runs on every exception
path, so a failed call commits nothing. -/
def createQuestionAux (visible : Nat → List Nat) (commitErr : Nat → Option String) :
    List Nat → Except CreateError Nat × List Nat
  | [] => (Except.error CreateError.concurrencyExhausted, [])
  | a :: rest =>
    let next := maxNumber (visible a) + 1
    match commitErr a with
    | none => (Except.ok next, [next])
    | some msg =>
      if isUniqueViolation msg then
        createQuestionAux visible commitErr rest
      else
        (Except.error CreateError.generic, [])

/-- The function `create_question`'s numbering step with `max_retries = 3`:
`for attempt in range(max_retries)`. -/
def createQuestion (visible : Nat → List Nat) (commitErr : Nat → Option String) :
    Except CreateError Nat × List Nat :=
  createQuestionAux visible commitErr [0, 1, 2]

/-! ## Two concurrent submissions: unlocked (source) vs locked (spec)

The claim that the max-read happens under a row write-lock is a
refinement claim, so two interleaving models are given.  `stepSrc`
is translated from the source: the `SELECT max` at
`routes_questions.py` line 81 carries no `.with_for_update()`, so a
transaction's read neither blocks nor is blocked, and the later
`INSERT`/commit hits the `uq_meeting_question_number` unique constraint
when the chosen number was committed meanwhile.  `stepLocked` follows
the spec's words ("Acquire a write-lock scoped to rows matching
meetingId ... and read the current maximum"): a reader takes the
meeting-scoped lock, a competing reader cannot proceed until the holder
commits, and the guarded insert therefore always succeeds. -/

/-- Phase of one in-flight `create_question` attempt. -/
inductive TxPhase where
  | start
  | gotMax (m : Nat)
  | done (n : Nat)
  | conflict
deriving DecidableEq

/-- Shared store plus the phase of two concurrent submissions. -/
structure TwoTx where
  committed : List Nat
  tx1 : TxPhase
  tx2 : TxPhase
deriving DecidableEq

/-- One scheduler step of one transaction under the source semantics
(read without any lock; insert guarded only by the unique constraint). -/
def stepTxSrc (committed : List Nat) : TxPhase → TxPhase × List Nat
  | TxPhase.start => (TxPhase.gotMax (maxNumber committed), committed)
  | TxPhase.gotMax m =>
    if (m + 1) ∈ committed then (TxPhase.conflict, committed)
    else (TxPhase.done (m + 1), committed ++ [m + 1])
  | p => (p, committed)

def stepSrc (s : TwoTx) (who : Bool) : TwoTx :=
  if who then
    let r := stepTxSrc s.committed s.tx1
    { s with tx1 := r.1, committed := r.2 }
  else
    let r := stepTxSrc s.committed s.tx2
    { s with tx2 := r.1, committed := r.2 }

/-- Run two concurrent submissions on an empty meeting under the source
semantics; `true` in the schedule steps transaction 1. -/
def runSrc (sched : List Bool) : TwoTx :=
  sched.foldl stepSrc { committed := [], tx1 := TxPhase.start, tx2 := TxPhase.start }

/-- Shared store, transaction phases and the meeting-scoped row lock for
the spec-mandated locking semantics. -/
structure TwoTxL where
  committed : List Nat
  tx1 : TxPhase
  tx2 : TxPhase
  lockHolder : Option Bool
deriving DecidableEq

/-- One scheduler step under the spec's words: the max-read acquires the
meeting's row write-lock (blocking while another transaction holds it)
and the insert-and-commit releases it. -/
def stepLocked (s : TwoTxL) (who : Bool) : TwoTxL :=
  let phase := if who then s.tx1 else s.tx2
  match phase with
  | TxPhase.start =>
    match s.lockHolder with
    | some holder =>
      if holder = who then
        let p := TxPhase.gotMax (maxNumber s.committed)
        if who then { s with tx1 := p } else { s with tx2 := p }
      else
        s
    | none =>
      let p := TxPhase.gotMax (maxNumber s.committed)
      if who then { s with tx1 := p, lockHolder := some who }
      else { s with tx2 := p, lockHolder := some who }
  | TxPhase.gotMax m =>
    let p := TxPhase.done (m + 1)
    if who then { s with tx1 := p, committed := s.committed ++ [m + 1], lockHolder := none }
    else { s with tx2 := p, committed := s.committed ++ [m + 1], lockHolder := none }
  | _ => s

/-- Run two concurrent submissions on an empty meeting under the
spec-mandated locking semantics. -/
def runLocked (sched : List Bool) : TwoTxL :=
  sched.foldl stepLocked
    { committed := [], tx1 := TxPhase.start, tx2 := TxPhase.start, lockHolder := none }

/-! ## Vote toggling (`routes_questions.toggle_vote`, lines 256-304)

The per-question vote state is the list of `student_id` values holding a
`QuestionVote` row for the question, together with the `upvotes`
counter.  `upvotes` is an `Int` because the Python integer column has no
inherent floor; the source applies `max(0, question.upvotes - 1)` at the
application layer. -/

structure VoteState where
  votes : List String
  upvotes : Int
deriving DecidableEq

/-- One committed `toggle_vote` call: if a `QuestionVote` row for
`(question, voter)` exists, delete it and set
`upvotes = max(0, upvotes - 1)` (`action = "removed"`); otherwise insert
the row and set `upvotes = upvotes + 1` (`action = "added"`). -/
def toggleVote (s : VoteState) (voter : String) : VoteState × String :=
  if voter ∈ s.votes then
    ({ votes := s.votes.erase voter, upvotes := max 0 (s.upvotes - 1) }, "removed")
  else
    ({ votes := s.votes ++ [voter], upvotes := s.upvotes + 1 }, "added")

/-- A sequence of committed `toggle_vote` calls, by voter identity. -/
def toggleSeq (s : VoteState) : List String → VoteState
  | [] => s
  | v :: rest => toggleSeq (toggleVote s v).1 rest

/-- Iterate `n` committed `toggle_vote` calls by the same voter. -/
def toggleN : Nat → VoteState → String → VoteState
  | 0, s, _ => s
  | n + 1, s, v => toggleN n (toggleVote s v).1 v

/-! ## Two concurrent `toggle_vote` calls (lost-update interleaving)

The source mutates the counter through the ORM: it reads
`question.upvotes` into the Python session, computes `upvotes + 1` (or
`max(0, upvotes - 1)`) there, and the commit writes the computed value
back (`UPDATE questions SET upvotes = <literal>`).  To examine this
under concurrency the call is split at its transaction-visible
boundary: the read of `(vote row present?, upvotes)` and the
write-back/commit that uses the previously read value. -/

/-- Phase of one in-flight `toggle_vote` call. -/
inductive VPhase where
  | start
  | readDone (hasVote : Bool) (v : Int)
  | finished (action : String)
deriving DecidableEq

/-- The read step: `SELECT` the existing vote row and load
`question.upvotes` into the ORM session. -/
def voteRead (shared : VoteState) (voter : String) : VPhase :=
  VPhase.readDone (shared.votes.contains voter) shared.upvotes

/-- The write-back/commit step: insert or delete the vote row and write
the counter value computed from the *previously read* `v` — not a
store-level relative update. -/
def voteWrite (shared : VoteState) (voter : String) (hasVote : Bool) (v : Int) : VoteState :=
  if hasVote then
    { votes := shared.votes.erase voter, upvotes := max 0 (v - 1) }
  else
    { votes := shared.votes ++ [voter], upvotes := v + 1 }

/-- Shared question state plus the phases of two concurrent
`toggle_vote` calls by voters "A" and "B". -/
structure TwoVote where
  shared : VoteState
  p1 : VPhase
  p2 : VPhase
deriving DecidableEq

def stepVote (s : TwoVote) (who : Bool) : TwoVote :=
  let voter := if who then "A" else "B"
  let phase := if who then s.p1 else s.p2
  match phase with
  | VPhase.start =>
    let p := voteRead s.shared voter
    if who then { s with p1 := p } else { s with p2 := p }
  | VPhase.readDone hv v =>
    let sh := voteWrite s.shared voter hv v
    let p := VPhase.finished (if hv then "removed" else "added")
    if who then { s with shared := sh, p1 := p } else { s with shared := sh, p2 := p }
  | VPhase.finished _ => s

/-- Run two concurrent `toggle_vote` calls on a question with no votes;
`true` in the schedule steps voter "A"'s call. -/
def runVotes (sched : List Bool) : TwoVote :=
  sched.foldl stepVote
    { shared := { votes := [], upvotes := 0 }, p1 := VPhase.start, p2 := VPhase.start }

/-! ## Realtime broadcaster (`main.ConnectionManager`, lines 337-440)

Connections are identified by `Nat`; timestamps
(`datetime.utcnow().timestamp()`) by `Int`.  The three Python dicts
become insertion-ordered association lists, matching dict semantics
(unique keys, new keys appended at the end). -/

/-- Dict lookup (`d[k]` / `k in d`). -/
def getA {α β : Type} [DecidableEq α] : List (α × β) → α → Option β
  | [], _ => none
  | (k, v) :: t, a => if k = a then some v else getA t a

/-- Dict write (`d[k] = v`): replaces the value when the key is present,
appends the pair otherwise. -/
def setA {α β : Type} [DecidableEq α] : List (α × β) → α → β → List (α × β)
  | [], a, b => [(a, b)]
  | (k, v) :: t, a, b => if k = a then (a, b) :: t else (k, v) :: setA t a b

/-- Dict deletion (`del d[k]`), a no-op when the key is absent (the
source guards all deletions with `if k in d`). -/
def delA {α β : Type} [DecidableEq α] : List (α × β) → α → List (α × β)
  | [], _ => []
  | (k, v) :: t, a => if k = a then delA t a else (k, v) :: delA t a

/-- State of `ConnectionManager`: `active_connections` maps a meeting code to the
list of connections, `message_counts` maps a connection to its
rate-limit timestamp log, `connection_times` maps a connection to its
last-activity timestamp. -/
structure ConnectionManager where
  active : List (String × List Nat)
  messageCounts : List (Nat × List Int)
  connectionTimes : List (Nat × Int)
deriving DecidableEq

def emptyManager : ConnectionManager :=
  { active := [], messageCounts := [], connectionTimes := [] }

/-- Method `ConnectionManager.connect` (lines 345-353): create the meeting's
list when absent, append the websocket, and (re)initialize the
rate-limit log to empty and the activity timestamp to now. -/
def connect (ws : Nat) (code : String) (now : Int) (m : ConnectionManager) :
    ConnectionManager :=
  let lst := (getA m.active code).getD []
  { active := setA m.active code (lst ++ [ws])
    messageCounts := setA m.messageCounts ws []
    connectionTimes := setA m.connectionTimes ws now }

/-- The `active_connections` update inside `ConnectionManager.disconnect`
(lines 356-361): remove the websocket from the meeting's list (first
occurrence, guarded by membership, matching `list.remove`); delete the
meeting's entry when the list becomes empty. -/
def removeFromActive (ws : Nat) (code : String)
    (act : List (String × List Nat)) : List (String × List Nat) :=
  match getA act code with
  | none => act
  | some lst =>
    let lst' := if ws ∈ lst then lst.erase ws else lst
    if lst' = [] then delA act code else setA act code lst'

/-- Method `ConnectionManager.disconnect` (lines 355-367): update
`active_connections` as above and drop the websocket's rate-limit and
activity bookkeeping. -/
def disconnect (ws : Nat) (code : String) (m : ConnectionManager) :
    ConnectionManager :=
  { active := removeFromActive ws code m.active
    messageCounts := delA m.messageCounts ws
    connectionTimes := delA m.connectionTimes ws }

/-- Method `ConnectionManager.check_rate_limit` (lines 369-390): when the
connection has a bookkeeping entry, keep only timestamps with
`now - ts < windowSeconds` (writing the pruned log back), reject when at
least `maxMessages` remain, otherwise append `now` and accept.  A
connection without an entry is accepted with no state change. -/
def checkRateLimit (ws : Nat) (maxMessages : Nat) (windowSeconds : Int) (now : Int)
    (m : ConnectionManager) : Bool × ConnectionManager :=
  match getA m.messageCounts ws with
  | none => (true, m)
  | some tss =>
    let kept := tss.filter (fun ts => now - ts < windowSeconds)
    if maxMessages ≤ kept.length then
      (false, { m with messageCounts := setA m.messageCounts ws kept })
    else
      (true, { m with messageCounts := setA m.messageCounts ws (kept ++ [now]) })

/-- Method `ConnectionManager.broadcast` (lines 407-419).  The event payload
does not influence the registry, so it is elided; `sendOk c` is whether
`c.send_json(message)` succeeds (`false` abstracts the caught
`WebSocketDisconnect`/`RuntimeError`/`ConnectionError`).  The sweep
attempts every connection in order — the delivered list is returned —
collects the failures, and only then disconnects them, so one failure
never prevents delivery to the rest and is never surfaced to the
caller. -/
def broadcast (sendOk : Nat → Bool) (code : String) (m : ConnectionManager) :
    ConnectionManager × List Nat :=
  match getA m.active code with
  | none => (m, [])
  | some conns =>
    let delivered := conns.filter (fun c => sendOk c)
    let disconnected := conns.filter (fun c => !(sendOk c))
    (disconnected.foldl (fun acc c => disconnect c code acc) m, delivered)

/-- Repeated `check_rate_limit` calls for one connection, one per
inbound-message timestamp; returns the verdicts in order. -/
def rateLimitRun (ws : Nat) (maxMessages : Nat) (windowSeconds : Int)
    (m : ConnectionManager) : List Int → List Bool × ConnectionManager
  | [] => ([], m)
  | t :: ts =>
    let r := checkRateLimit ws maxMessages windowSeconds t m
    let rest := rateLimitRun ws maxMessages windowSeconds r.2 ts
    (r.1 :: rest.1, rest.2)

/-! ## Association-list lemmas -/

theorem getA_setA_self {α β : Type} [DecidableEq α] (l : List (α × β)) (a : α) (b : β) :
    getA (setA l a b) a = some b := by
  induction l with
  | nil => simp [setA, getA]
  | cons p t ih =>
    obtain ⟨k, v⟩ := p
    by_cases h : k = a
    · simp [setA, getA, h]
    · simp [setA, getA, h, ih]

theorem getA_delA_self {α β : Type} [DecidableEq α] (l : List (α × β)) (a : α) :
    getA (delA l a) a = none := by
  induction l with
  | nil => simp [delA, getA]
  | cons p t ih =>
    obtain ⟨k, v⟩ := p
    by_cases h : k = a
    · simp [delA, getA, h, ih]
    · simp [delA, getA, h, ih]

theorem mem_setA {α β : Type} [DecidableEq α] {l : List (α × β)} {a : α} {b : β}
    {p : α × β} (h : p ∈ setA l a b) : p ∈ l ∨ p = (a, b) := by
  induction l with
  | nil => simp [setA] at h; exact Or.inr h
  | cons q t ih =>
    obtain ⟨k, v⟩ := q
    by_cases hk : k = a
    · simp only [setA, if_pos hk] at h
      rcases List.mem_cons.mp h with h1 | h1
      · exact Or.inr h1
      · exact Or.inl (List.mem_cons_of_mem _ h1)
    · simp only [setA, if_neg hk] at h
      rcases List.mem_cons.mp h with h1 | h1
      · exact Or.inl (h1 ▸ List.mem_cons_self _ _)
      · rcases ih h1 with h2 | h2
        · exact Or.inl (List.mem_cons_of_mem _ h2)
        · exact Or.inr h2

theorem mem_delA {α β : Type} [DecidableEq α] {l : List (α × β)} {a : α}
    {p : α × β} (h : p ∈ delA l a) : p ∈ l := by
  induction l with
  | nil => simp [delA] at h
  | cons q t ih =>
    obtain ⟨k, v⟩ := q
    by_cases hk : k = a
    · simp only [delA, if_pos hk] at h
      exact List.mem_cons_of_mem _ (ih h)
    · simp only [delA, if_neg hk] at h
      rcases List.mem_cons.mp h with h1 | h1
      · exact h1 ▸ List.mem_cons_self _ _
      · exact List.mem_cons_of_mem _ (ih h1)

/-! ## Sequencer lemmas and claims C1, C2 -/

theorem createQuestionAux_cons_ok {visible : Nat → List Nat} {commitErr : Nat → Option String}
    {a : Nat} {rest : List Nat} (hc : commitErr a = none) :
    createQuestionAux visible commitErr (a :: rest)
      = (Except.ok (maxNumber (visible a) + 1), [maxNumber (visible a) + 1]) := by
  unfold createQuestionAux; rw [hc]

theorem createQuestionAux_cons_unique {visible : Nat → List Nat}
    {commitErr : Nat → Option String} {a : Nat} {rest : List Nat} {msg : String}
    (hc : commitErr a = some msg) (hu : isUniqueViolation msg = true) :
    createQuestionAux visible commitErr (a :: rest)
      = createQuestionAux visible commitErr rest := by
  conv_lhs => unfold createQuestionAux
  rw [hc]; simp [hu]

theorem createQuestionAux_cons_generic {visible : Nat → List Nat}
    {commitErr : Nat → Option String} {a : Nat} {rest : List Nat} {msg : String}
    (hc : commitErr a = some msg) (hu : isUniqueViolation msg = false) :
    createQuestionAux visible commitErr (a :: rest)
      = (Except.error CreateError.generic, []) := by
  unfold createQuestionAux; rw [hc]; simp [hu]

theorem createQuestionAux_error_rollback (l : List Nat) (visible : Nat → List Nat)
    (commitErr : Nat → Option String) (e : CreateError)
    (h : (createQuestionAux visible commitErr l).1 = Except.error e) :
    (createQuestionAux visible commitErr l).2 = [] := by
  induction l with
  | nil => rfl
  | cons a rest ih =>
    cases hc : commitErr a with
    | none => rw [createQuestionAux_cons_ok hc] at h; simp at h
    | some msg =>
      by_cases hu : isUniqueViolation msg = true
      · rw [createQuestionAux_cons_unique hc hu] at h ⊢
        exact ih h
      · have hu' : isUniqueViolation msg = false := by simpa using hu
        rw [createQuestionAux_cons_generic hc hu']


/-- Claim C1 (counterexample).  The claim asserts that `create_question`
reads the meeting's maximum `questionNumber` under a row write-lock
(`SELECT ... FOR UPDATE` or equivalent).  The live endpoint
(`routes_questions.py` line 81) uses a plain, non-locking `SELECT max`
(only the dead legacy function in `main.py` locks), so on the concrete
interleaving read₁, read₂, insert₁, insert₂ both transactions read
`max = 0` and the second insert hits the unique constraint — an
execution that is impossible when the read holds the row write-lock: on
the same interleaving the spec-mandated locking model blocks the second
read and yields the distinct numbers 1 and 2 with no conflict. -/
theorem maxRead_without_lock_counterexample :
    (runSrc [true, false, true, false]).tx1 = TxPhase.done 1 ∧
    (runSrc [true, false, true, false]).tx2 = TxPhase.conflict ∧
    (runLocked [true, false, true, false, false]).tx1 = TxPhase.done 1 ∧
    (runLocked [true, false, true, false, false]).tx2 = TxPhase.done 2 := by
  decide

/-- Claim C1 (amended).  For every successful `create_question` attempt,
the new question's number equals one plus the maximum `questionNumber`
the attempt's read observed (1 when the meeting has no questions); the
maximum is read with an ordinary non-locking `SELECT` inside the same
transaction, and duplicate numbers are prevented by the unique
constraint on `(meeting_id, question_number)` with retries, not by a row
write-lock. -/
theorem submit_number_succ_max (visible : Nat → List Nat)
    (commitErr : Nat → Option String) (h : commitErr 0 = none) :
    (createQuestion visible commitErr).1 = Except.ok (maxNumber (visible 0) + 1) ∧
    (visible 0 = [] → (createQuestion visible commitErr).1 = Except.ok 1) := by
  refine ⟨?_, fun hv => ?_⟩
  · rw [createQuestion, createQuestionAux_cons_ok h]
  · rw [createQuestion, createQuestionAux_cons_ok h, hv]
    rfl

/-- Witness for `submit_number_succ_max` at a meeting whose committed
question numbers are `[3, 1, 2]` and a first attempt that commits
cleanly. -/
theorem submit_number_succ_max_witness :
    (createQuestion (fun _ => [3, 1, 2]) (fun _ => none)).1 = Except.ok 4 :=
  (submit_number_succ_max (fun _ => [3, 1, 2]) (fun _ => none) rfl).1

/-- Claim C2.  The retry loop of `create_question`: (a) when all three
attempts fail with a unique-constraint violation, the call fails with
the concurrency-exhausted error and leaves no partial row committed;
(b) any failing outcome leaves no partial row committed; (c) after a
unique-constraint violation the whole read-maximum-and-insert step is
re-executed — a first-attempt violation followed by a clean second
attempt yields one plus the maximum observed by the *second* read. -/
theorem submit_retry_exhaustion_rollback :
    (∀ (visible : Nat → List Nat) (commitErr : Nat → Option String),
       (∀ k, k < 3 → ∃ msg, commitErr k = some msg ∧ isUniqueViolation msg = true) →
       createQuestion visible commitErr
         = (Except.error CreateError.concurrencyExhausted, [])) ∧
    (∀ (visible : Nat → List Nat) (commitErr : Nat → Option String) (e : CreateError),
       (createQuestion visible commitErr).1 = Except.error e →
       (createQuestion visible commitErr).2 = []) ∧
    (∀ (visible : Nat → List Nat) (commitErr : Nat → Option String) (msg : String),
       commitErr 0 = some msg → isUniqueViolation msg = true → commitErr 1 = none →
       createQuestion visible commitErr
         = (Except.ok (maxNumber (visible 1) + 1), [maxNumber (visible 1) + 1])) := by
  refine ⟨?_, ?_, ?_⟩
  · intro visible commitErr h
    obtain ⟨m0, hc0, hu0⟩ := h 0 (by omega)
    obtain ⟨m1, hc1, hu1⟩ := h 1 (by omega)
    obtain ⟨m2, hc2, hu2⟩ := h 2 (by omega)
    rw [createQuestion, createQuestionAux_cons_unique hc0 hu0,
      createQuestionAux_cons_unique hc1 hu1, createQuestionAux_cons_unique hc2 hu2]
    rfl
  · intro visible commitErr e h
    exact createQuestionAux_error_rollback _ visible commitErr e h
  · intro visible commitErr msg hc0 hu0 hc1
    rw [createQuestion, createQuestionAux_cons_unique hc0 hu0,
      createQuestionAux_cons_ok hc1]

/-- Witness for `submit_retry_exhaustion_rollback`: three attempts all
failing with a SQLite-style unique-constraint message exhaust the retry
bound with nothing committed, and a violation followed by a clean
attempt numbers the question from the second read. -/
theorem submit_retry_exhaustion_rollback_witness :
    createQuestion (fun _ => [1])
        (fun _ => some "UNIQUE constraint failed: questions.meeting_id, questions.question_number")
      = (Except.error CreateError.concurrencyExhausted, []) ∧
    createQuestion (fun _ => [1])
        (fun k => if k = 0 then some "duplicate key value violates unique constraint" else none)
      = (Except.ok (maxNumber ((fun _ => [1]) 1) + 1), [maxNumber ((fun _ => [1]) 1) + 1]) :=
  ⟨submit_retry_exhaustion_rollback.1 _ _
      (fun k _ => ⟨_, rfl, by decide⟩),
   submit_retry_exhaustion_rollback.2.2 _ _
      "duplicate key value violates unique constraint" rfl (by decide) rfl⟩

/-! ## Vote-toggle lemmas and claims C3, C4, C5 -/

/-- Claim C3 (the failing input, evaluated).  The upvote counter is
mutated through the ORM as a read-then-write-back
(`question.upvotes += 1` on the loaded instance, flushed as
`UPDATE ... SET upvotes = <literal>`), not as a store-level relative
update.  On a question with no votes, two distinct voters "A" and "B"
toggling concurrently under the interleaving read-A, read-B, write-A,
write-B both read `upvotes = 0`, both commit `upvotes = 1`, and the
final state has two `QuestionVote` rows but `upvotes = 1 ≠ 2` — the
lost update the claim (and the repository's own
`test_race_conditions.py`) rules out. -/
theorem vote_lost_update :
    (runVotes [true, false, true, false]).shared.votes = ["A", "B"] ∧
    (runVotes [true, false, true, false]).shared.votes.length = 2 ∧
    (runVotes [true, false, true, false]).shared.upvotes = 1 ∧
    (runVotes [true, false, true, false]).p1 = VPhase.finished "added" ∧
    (runVotes [true, false, true, false]).p2 = VPhase.finished "added" ∧
    (runVotes [true, false, true, false]).shared.upvotes ≠ 2 := by
  decide

/-- One committed `toggle_vote` call preserves the count invariant: if
`upvotes` equals the number of vote rows before, it does after. -/
theorem toggleVote_consistent (s : VoteState) (v : String)
    (h : s.upvotes = (s.votes.length : Int)) :
    (toggleVote s v).1.upvotes = ((toggleVote s v).1.votes.length : Int) := by
  by_cases hm : v ∈ s.votes
  · simp only [toggleVote, if_pos hm]
    have h1 : (s.votes.erase v).length = s.votes.length - 1 :=
      List.length_erase_of_mem hm
    have h2 : 0 < s.votes.length := List.length_pos_of_mem hm
    rw [h1, h]
    omega
  · simp only [toggleVote, if_neg hm]
    simp [h]

theorem toggleSeq_consistent (calls : List String) (s : VoteState)
    (h : s.upvotes = (s.votes.length : Int)) :
    (toggleSeq s calls).upvotes = ((toggleSeq s calls).votes.length : Int) := by
  induction calls generalizing s with
  | nil => exact h
  | cons v rest ih => exact ih _ (toggleVote_consistent s v h)

/-- Claim C4.  Starting from any state in which `upvotes` equals the
number of `QuestionVote` rows, after any sequence of committed
`toggle_vote` calls `upvotes` still equals the number of vote rows and
is never negative. -/
theorem vote_count_invariant (s : VoteState) (calls : List String)
    (h : s.upvotes = (s.votes.length : Int)) :
    (toggleSeq s calls).upvotes = ((toggleSeq s calls).votes.length : Int) ∧
    0 ≤ (toggleSeq s calls).upvotes := by
  have hc := toggleSeq_consistent calls s h
  refine ⟨hc, ?_⟩
  rw [hc]
  exact Int.natCast_nonneg _

/-- Witness for `vote_count_invariant`: voters "a", "b", then "a" again
on a question that starts with no votes. -/
theorem vote_count_invariant_witness :
    (toggleSeq (VoteState.mk [] 0) ["a", "b", "a"]).upvotes
      = ((toggleSeq (VoteState.mk [] 0) ["a", "b", "a"]).votes.length : Int) ∧
    0 ≤ (toggleSeq (VoteState.mk [] 0) ["a", "b", "a"]).upvotes :=
  vote_count_invariant (VoteState.mk [] 0) ["a", "b", "a"] rfl

/-- The store's unique constraint `uq_question_student_vote` guarantees
at most one vote row per `(question, voter)`; under it, one
`toggle_vote` call flips the voter's membership and moves the counter by
exactly one. -/
theorem toggleVote_step (s : VoteState) (v : String)
    (hc : s.votes.count v ≤ 1) (hi : s.upvotes = (s.votes.length : Int)) :
    (toggleVote s v).1.votes.count v ≤ 1 ∧
    (toggleVote s v).1.upvotes = ((toggleVote s v).1.votes.length : Int) ∧
    (v ∈ s.votes →
      (toggleVote s v).1.upvotes = s.upvotes - 1 ∧ v ∉ (toggleVote s v).1.votes) ∧
    (v ∉ s.votes →
      (toggleVote s v).1.upvotes = s.upvotes + 1 ∧ v ∈ (toggleVote s v).1.votes) := by
  refine ⟨?_, toggleVote_consistent s v hi, fun hm => ?_, fun hm => ?_⟩
  · by_cases hm : v ∈ s.votes
    · simp only [toggleVote, if_pos hm]
      have := List.count_erase_self v s.votes
      omega
    · simp only [toggleVote, if_neg hm]
      have h0 : s.votes.count v = 0 := List.count_eq_zero.mpr hm
      simp [List.count_append, h0]
  · simp only [toggleVote, if_pos hm]
    have h1 : 0 < s.votes.length := List.length_pos_of_mem hm
    have h2 : 0 < s.votes.count v := List.count_pos_iff.mpr hm
    have h3 : (s.votes.erase v).count v = s.votes.count v - 1 :=
      List.count_erase_self v s.votes
    refine ⟨by rw [hi]; omega, ?_⟩
    intro hmem
    have := List.count_pos_iff.mpr hmem
    omega
  · simp only [toggleVote, if_neg hm]
    exact ⟨by trivial, by simp⟩

/-- Iteration `toggleN` splits across addition of iteration counts. -/
theorem toggleN_add (a : Nat) (v : String) :
    ∀ (b : Nat) (s : VoteState), toggleN (a + b) s v = toggleN a (toggleN b s v) v := by
  intro b
  induction b with
  | zero => intro s; rfl
  | succ n ih =>
    intro s
    have h : a + (n + 1) = (a + n) + 1 := by omega
    rw [h]
    exact ih (toggleVote s v).1

/-- Two `toggle_vote` calls by the same voter cancel: the counter and
the voter's membership return to their original values, and the
hypotheses persist. -/
theorem toggleVote_twice (s : VoteState) (v : String)
    (hc : s.votes.count v ≤ 1) (hi : s.upvotes = (s.votes.length : Int)) :
    (toggleN 2 s v).upvotes = s.upvotes ∧
    ((v ∈ (toggleN 2 s v).votes) ↔ v ∈ s.votes) ∧
    (toggleN 2 s v).votes.count v ≤ 1 ∧
    (toggleN 2 s v).upvotes = ((toggleN 2 s v).votes.length : Int) := by
  have hstep := toggleVote_step s v hc hi
  have h2 : toggleN 2 s v = (toggleVote (toggleVote s v).1 v).1 := rfl
  have hstep2 := toggleVote_step (toggleVote s v).1 v hstep.1 hstep.2.1
  by_cases hm : v ∈ s.votes
  · obtain ⟨hdown, hout⟩ := hstep.2.2.1 hm
    obtain ⟨hup, hin⟩ := hstep2.2.2.2 hout
    rw [h2]
    refine ⟨by rw [hup, hdown]; ring, by simp [hin, hm], hstep2.1, hstep2.2.1⟩
  · obtain ⟨hup, hin⟩ := hstep.2.2.2 hm
    obtain ⟨hdown, hout⟩ := hstep2.2.2.1 hin
    rw [h2]
    refine ⟨by rw [hdown, hup]; ring, by simp [hout, hm], hstep2.1, hstep2.2.1⟩

/-- An even number of `toggle_vote` calls by the same voter leaves the
counter and the voter's membership unchanged, and preserves the
hypotheses. -/
theorem toggleVote_even (v : String) :
    ∀ (k : Nat) (s : VoteState), s.votes.count v ≤ 1 →
      s.upvotes = (s.votes.length : Int) →
      (toggleN (2 * k) s v).upvotes = s.upvotes ∧
      ((v ∈ (toggleN (2 * k) s v).votes) ↔ v ∈ s.votes) ∧
      (toggleN (2 * k) s v).votes.count v ≤ 1 ∧
      (toggleN (2 * k) s v).upvotes = ((toggleN (2 * k) s v).votes.length : Int) := by
  intro k
  induction k with
  | zero => intro s hc hi; exact ⟨rfl, Iff.rfl, hc, hi⟩
  | succ n ih =>
    intro s hc hi
    have hsplit : 2 * (n + 1) = 2 * n + 2 := by omega
    have htwo := toggleVote_twice s v hc hi
    have hrec := ih (toggleN 2 s v) htwo.2.2.1 htwo.2.2.2
    rw [hsplit, toggleN_add (2 * n) v 2 s]
    exact ⟨hrec.1.trans htwo.1, hrec.2.1.trans htwo.2.1, hrec.2.2⟩

/-- Claim C5.  Under the store-enforced at-most-one-vote-per-voter
constraint and an accurate counter, two `toggle_vote` calls by the same
voter restore the original `upvotes`, and any odd number of calls moves
it by exactly one — minus one if the voter started with a vote, plus one
otherwise — never taking it below zero. -/
theorem vote_toggle_parity (s : VoteState) (v : String)
    (hc : s.votes.count v ≤ 1) (hi : s.upvotes = (s.votes.length : Int)) :
    (toggleN 2 s v).upvotes = s.upvotes ∧
    ∀ k : Nat,
      (toggleN (2 * k + 1) s v).upvotes
        = (if v ∈ s.votes then s.upvotes - 1 else s.upvotes + 1) ∧
      0 ≤ (toggleN (2 * k + 1) s v).upvotes := by
  refine ⟨(toggleVote_twice s v hc hi).1, fun k => ?_⟩
  have hstep := toggleVote_step s v hc hi
  have hsplit : 2 * k + 1 = 2 * k + 1 := rfl
  have heq : toggleN (2 * k + 1) s v = toggleN (2 * k) (toggleVote s v).1 v := rfl
  have heven := toggleVote_even v k (toggleVote s v).1 hstep.1 hstep.2.1
  rw [heq]
  constructor
  · rw [heven.1]
    by_cases hm : v ∈ s.votes
    · rw [if_pos hm]
      exact (hstep.2.2.1 hm).1
    · rw [if_neg hm]
      exact (hstep.2.2.2 hm).1
  · rw [heven.2.2.2]
    exact Int.natCast_nonneg _

/-- Witness for `vote_toggle_parity`: voter "x" on a question with no
votes; two toggles restore the counter and seven toggles leave it at
plus one. -/
theorem vote_toggle_parity_witness :
    (toggleN 2 (VoteState.mk [] 0) "x").upvotes = (VoteState.mk [] 0).upvotes ∧
    ((toggleN (2 * 3 + 1) (VoteState.mk [] 0) "x").upvotes
        = (if "x" ∈ (VoteState.mk [] 0).votes then (VoteState.mk [] 0).upvotes - 1
           else (VoteState.mk [] 0).upvotes + 1) ∧
      0 ≤ (toggleN (2 * 3 + 1) (VoteState.mk [] 0) "x").upvotes) :=
  ⟨(vote_toggle_parity (VoteState.mk [] 0) "x" (by decide) rfl).1,
   (vote_toggle_parity (VoteState.mk [] 0) "x" (by decide) rfl).2 3⟩

/-! ## Broadcaster lemmas and claims C6-C10 -/

theorem filter_fail_eq_single {f : Nat → Bool} :
    ∀ {l : List Nat} {b : Nat}, l.Nodup → b ∈ l → f b = false →
      (∀ c ∈ l, c ≠ b → f c = true) → l.filter (fun c => !(f c)) = [b] := by
  intro l
  induction l with
  | nil => intro b _ hb; cases hb
  | cons a t ih =>
    intro b hnd hb hfb hok
    rcases List.mem_cons.mp hb with rfl | hbt
    · have ht : ∀ c ∈ t, f c = true := by
        intro c hc
        have hne : c ≠ b := by
          intro hcb
          exact (List.nodup_cons.mp hnd).1 (hcb ▸ hc)
        exact hok c (List.mem_cons_of_mem _ hc) hne
      have : t.filter (fun c => !(f c)) = [] := by
        rw [List.filter_eq_nil_iff]
        intro c hc
        simp [ht c hc]
      simp [List.filter_cons, hfb, this]
    · have ha : f a = true := by
        refine hok a (List.mem_cons_self _ _) ?_
        intro hab
        exact (List.nodup_cons.mp hnd).1 (hab ▸ hbt)
      have hrec := ih (List.nodup_cons.mp hnd).2 hbt hfb
        (fun c hc hne => hok c (List.mem_cons_of_mem _ hc) hne)
      simp [List.filter_cons, ha, hrec]

theorem filter_ok_eq_erase {f : Nat → Bool} :
    ∀ {l : List Nat} {b : Nat}, l.Nodup → b ∈ l → f b = false →
      (∀ c ∈ l, c ≠ b → f c = true) → l.filter f = l.erase b := by
  intro l
  induction l with
  | nil => intro b _ hb; cases hb
  | cons a t ih =>
    intro b hnd hb hfb hok
    rcases List.mem_cons.mp hb with rfl | hbt
    · have ht : ∀ c ∈ t, f c = true := by
        intro c hc
        have hne : c ≠ b := by
          intro hcb
          exact (List.nodup_cons.mp hnd).1 (hcb ▸ hc)
        exact hok c (List.mem_cons_of_mem _ hc) hne
      have : t.filter f = t := List.filter_eq_self.mpr ht
      simp [List.filter_cons, hfb, this]
    · have ha : f a = true := by
        refine hok a (List.mem_cons_self _ _) ?_
        intro hab
        exact (List.nodup_cons.mp hnd).1 (hab ▸ hbt)
      have hab : a ≠ b := by
        intro hab
        exact (List.nodup_cons.mp hnd).1 (hab ▸ hbt)
      have hrec := ih (List.nodup_cons.mp hnd).2 hbt hfb
        (fun c hc hne => hok c (List.mem_cons_of_mem _ hc) hne)
      rw [List.filter_cons, if_pos (by simp [ha]), hrec,
        List.erase_cons_tail]
      simp [hab]

/-- What `disconnect` does to the meeting's `active_connections` entry
when the websocket is present in it. -/
theorem getA_disconnect_active (m : ConnectionManager) (ws : Nat) (code : String)
    (lst : List Nat) (hget : getA m.active code = some lst) (hmem : ws ∈ lst) :
    getA (disconnect ws code m).active code
      = (if lst.erase ws = [] then none else some (lst.erase ws)) := by
  show getA (removeFromActive ws code m.active) code = _
  unfold removeFromActive
  rw [hget]
  simp only [if_pos hmem]
  by_cases he : lst.erase ws = []
  · simp only [if_pos he]
    exact getA_delA_self _ _
  · simp only [if_neg he]
    exact getA_setA_self _ _ _

/-- Claim C6.  With `conns` registered under `code` and exactly one
connection `b` whose transport fails (the caught
`WebSocketDisconnect`/`RuntimeError`/`ConnectionError` family),
`broadcast` still delivers to every other connection — the full sweep
runs, no fail-fast — and by the end of the call `b` is gone from the
registry and its bookkeeping; the failure itself is consumed inside the
sweep (the function is total: it returns the post-cleanup registry, not
an error). -/
theorem broadcast_resilient (m : ConnectionManager) (code : String)
    (conns : List Nat) (b : Nat) (sendOk : Nat → Bool)
    (hget : getA m.active code = some conns) (hnd : conns.Nodup) (hb : b ∈ conns)
    (hfail : sendOk b = false) (hok : ∀ c ∈ conns, c ≠ b → sendOk c = true) :
    (broadcast sendOk code m).2 = conns.erase b ∧
    (broadcast sendOk code m).2.length + 1 = conns.length ∧
    getA (broadcast sendOk code m).1.active code
      = (if conns.erase b = [] then none else some (conns.erase b)) ∧
    getA (broadcast sendOk code m).1.messageCounts b = none ∧
    getA (broadcast sendOk code m).1.connectionTimes b = none := by
  have hdel : conns.filter (fun c => sendOk c) = conns.erase b :=
    filter_ok_eq_erase hnd hb hfail hok
  have hdisc : conns.filter (fun c => !(sendOk c)) = [b] :=
    filter_fail_eq_single hnd hb hfail hok
  have hbr : broadcast sendOk code m = (disconnect b code m, conns.erase b) := by
    unfold broadcast
    rw [hget]
    simp only [hdel, hdisc, List.foldl_cons, List.foldl_nil]
  rw [hbr]
  have hlen : (conns.erase b).length = conns.length - 1 :=
    List.length_erase_of_mem hb
  have hpos : 0 < conns.length := List.length_pos_of_mem hb
  refine ⟨rfl, ?_, getA_disconnect_active m b code conns hget hb, ?_, ?_⟩
  · show (conns.erase b).length + 1 = conns.length
    omega
  · exact getA_delA_self _ _
  · exact getA_delA_self _ _

/-- Witness for `broadcast_resilient`: connections 1, 2, 3 registered
under "m"; connection 2's transport fails. -/
theorem broadcast_resilient_witness :
    (broadcast (fun c => decide (c ≠ 2)) "m"
        (ConnectionManager.mk [("m", [1, 2, 3])] [(1, []), (2, []), (3, [])]
          [(1, 0), (2, 0), (3, 0)])).2 = [1, 2, 3].erase 2 ∧
    (broadcast (fun c => decide (c ≠ 2)) "m"
        (ConnectionManager.mk [("m", [1, 2, 3])] [(1, []), (2, []), (3, [])]
          [(1, 0), (2, 0), (3, 0)])).2.length + 1 = [1, 2, 3].length ∧
    getA (broadcast (fun c => decide (c ≠ 2)) "m"
        (ConnectionManager.mk [("m", [1, 2, 3])] [(1, []), (2, []), (3, [])]
          [(1, 0), (2, 0), (3, 0)])).1.active "m"
      = (if [1, 2, 3].erase 2 = [] then none else some ([1, 2, 3].erase 2)) ∧
    getA (broadcast (fun c => decide (c ≠ 2)) "m"
        (ConnectionManager.mk [("m", [1, 2, 3])] [(1, []), (2, []), (3, [])]
          [(1, 0), (2, 0), (3, 0)])).1.messageCounts 2 = none ∧
    getA (broadcast (fun c => decide (c ≠ 2)) "m"
        (ConnectionManager.mk [("m", [1, 2, 3])] [(1, []), (2, []), (3, [])]
          [(1, 0), (2, 0), (3, 0)])).1.connectionTimes 2 = none :=
  broadcast_resilient
    (ConnectionManager.mk [("m", [1, 2, 3])] [(1, []), (2, []), (3, [])]
      [(1, 0), (2, 0), (3, 0)])
    "m" [1, 2, 3] 2 (fun c => decide (c ≠ 2)) rfl (by decide) (by decide)
    (by decide) (by decide)

/-- Claim C7 (counterexample).  `connect` appends unconditionally to the
meeting's list, so registering an already-registered connection is not a
membership no-op: after connecting connection 1 to meeting "m" twice,
the registry holds it twice. -/
theorem connect_duplicate_counterexample :
    getA (connect 1 "m" 5 (connect 1 "m" 0 emptyManager)).active "m" = some [1, 1] ∧
    ((getA (connect 1 "m" 5 (connect 1 "m" 0 emptyManager)).active "m").getD []).count 1
      = 2 := by
  decide

/-- Claim C7 (amended).  `connect` always appends the connection to the
meeting's list — re-registering an already-registered connection adds a
second occurrence rather than leaving membership unchanged — while
resetting its rate-limit window to empty and its last-activity timestamp
to now. -/
theorem connect_appends_and_resets (m : ConnectionManager) (ws : Nat) (code : String)
    (now : Int) :
    getA (connect ws code now m).active code
      = some ((getA m.active code).getD [] ++ [ws]) ∧
    getA (connect ws code now m).messageCounts ws = some [] ∧
    getA (connect ws code now m).connectionTimes ws = some now :=
  ⟨getA_setA_self _ _ _, getA_setA_self _ _ _, getA_setA_self _ _ _⟩

/-- No meeting code maps to an empty connection list. -/
def noEmpty (m : ConnectionManager) : Prop :=
  ∀ p ∈ m.active, p.2 ≠ ([] : List Nat)

theorem connect_noEmpty (m : ConnectionManager) (h : noEmpty m) (ws : Nat)
    (code : String) (now : Int) : noEmpty (connect ws code now m) := by
  intro p hp
  rcases mem_setA hp with hin | rfl
  · exact h p hin
  · simp

theorem disconnect_noEmpty (m : ConnectionManager) (h : noEmpty m) (ws : Nat)
    (code : String) : noEmpty (disconnect ws code m) := by
  intro p hp
  have hp' : p ∈ removeFromActive ws code m.active := hp
  unfold removeFromActive at hp'
  cases hget : getA m.active code with
  | none =>
    rw [hget] at hp'
    exact h p hp'
  | some lst =>
    rw [hget] at hp'
    simp only at hp'
    by_cases he : (if ws ∈ lst then lst.erase ws else lst) = []
    · rw [if_pos he] at hp'
      exact h p (mem_delA hp')
    · rw [if_neg he] at hp'
      rcases mem_setA hp' with hin | rfl
      · exact h p hin
      · exact he

theorem foldl_disconnect_noEmpty (code : String) :
    ∀ (cs : List Nat) (m : ConnectionManager), noEmpty m →
      noEmpty (cs.foldl (fun acc c => disconnect c code acc) m) := by
  intro cs
  induction cs with
  | nil => intro m h; exact h
  | cons c t ih =>
    intro m h
    exact ih (disconnect c code m) (disconnect_noEmpty m h c code)

/-- Claim C8.  If no meeting code maps to an empty list, the same holds
after `connect`, after `disconnect`, and after the cleanup sweep inside
`broadcast`; moreover removing the last connection of a meeting removes
the meeting's entry entirely. -/
theorem registry_no_empty_sets (m : ConnectionManager) (h : noEmpty m) :
    (∀ ws code now, noEmpty (connect ws code now m)) ∧
    (∀ ws code, noEmpty (disconnect ws code m)) ∧
    (∀ sendOk code, noEmpty (broadcast sendOk code m).1) ∧
    (∀ ws code, getA m.active code = some [ws] →
       getA (disconnect ws code m).active code = none) := by
  refine ⟨fun ws code now => connect_noEmpty m h ws code now,
    fun ws code => disconnect_noEmpty m h ws code, fun sendOk code => ?_, ?_⟩
  · unfold broadcast
    cases hget : getA m.active code with
    | none => exact h
    | some conns =>
      exact foldl_disconnect_noEmpty code _ m h
  · intro ws code hget
    rw [getA_disconnect_active m ws code [ws] hget (List.mem_singleton.mpr rfl)]
    simp

/-- Witness for `registry_no_empty_sets`: disconnecting the sole
connection of meeting "m" removes the "m" entry. -/
theorem registry_no_empty_sets_witness :
    getA (disconnect 1 "m"
        (ConnectionManager.mk [("m", [1])] [(1, [])] [(1, 0)])).active "m" = none :=
  (registry_no_empty_sets (ConnectionManager.mk [("m", [1])] [(1, [])] [(1, 0)])
    (by unfold noEmpty; decide)).2.2.2 1 "m" rfl

/-- Claim C9.  For a registered connection, `check_rate_limit` first
discards the recorded timestamps that have left the trailing window
(keeping those with `now - ts < windowSeconds`, and writing the pruned
log back); if at least `maxMessages` remain it rejects without recording
the new message, otherwise it records `now` and accepts. -/
theorem rate_limit_sliding_window (m : ConnectionManager) (ws : Nat)
    (log : List Int) (maxMessages : Nat) (window now : Int)
    (h : getA m.messageCounts ws = some log) :
    (maxMessages ≤ (log.filter (fun ts => now - ts < window)).length →
       checkRateLimit ws maxMessages window now m
         = (false, { m with
             messageCounts :=
               setA m.messageCounts ws
                 (log.filter (fun ts => now - ts < window)) })) ∧
    ((log.filter (fun ts => now - ts < window)).length < maxMessages →
       checkRateLimit ws maxMessages window now m
         = (true, { m with
             messageCounts :=
               setA m.messageCounts ws
                 (log.filter (fun ts => now - ts < window) ++ [now]) })) := by
  constructor
  · intro hle
    unfold checkRateLimit
    rw [h]
    simp only [if_pos hle]
  · intro hlt
    unfold checkRateLimit
    rw [h]
    simp only [if_neg (by omega : ¬ maxMessages ≤ (log.filter (fun ts => now - ts < window)).length)]

/-- Witness for `rate_limit_sliding_window`: connection 7 with recorded
timestamps 0, 1, 5; at `now = 6` with a 10-second window all three
survive pruning, which reaches the limit of 2, so the message is
rejected and not recorded. -/
theorem rate_limit_sliding_window_witness :
    checkRateLimit 7 2 10 6
        (ConnectionManager.mk [] [(7, [0, 1, 5])] [])
      = (false, { (ConnectionManager.mk [] [(7, [0, 1, 5])] []) with
          messageCounts :=
            setA [(7, [0, 1, 5])] 7
              ([0, 1, 5].filter (fun ts => 6 - ts < 10)) }) :=
  (rate_limit_sliding_window (ConnectionManager.mk [] [(7, [0, 1, 5])] []) 7
    [0, 1, 5] 2 10 6 rfl).1 (by decide)

/-- Claim C10 (implicit).  A connection with no rate-limit bookkeeping
entry — never registered, or already unregistered — is accepted with no
state change, so however many messages it sends, `check_rate_limit`
never rejects it and never records anything. -/
theorem unregistered_never_rate_limited (m : ConnectionManager) (ws : Nat)
    (maxMessages : Nat) (window : Int) (h : getA m.messageCounts ws = none) :
    (∀ now, checkRateLimit ws maxMessages window now m = (true, m)) ∧
    (∀ times : List Int,
       (∀ b ∈ (rateLimitRun ws maxMessages window m times).1, b = true) ∧
       (rateLimitRun ws maxMessages window m times).2 = m) := by
  have hone : ∀ now, checkRateLimit ws maxMessages window now m = (true, m) := by
    intro now
    unfold checkRateLimit
    rw [h]
  refine ⟨hone, ?_⟩
  intro times
  induction times with
  | nil => exact ⟨fun b hb => absurd hb (List.not_mem_nil b), rfl⟩
  | cons t ts ih =>
    have hrun : rateLimitRun ws maxMessages window m (t :: ts)
        = (true :: (rateLimitRun ws maxMessages window m ts).1,
           (rateLimitRun ws maxMessages window m ts).2) := by
      show ((checkRateLimit ws maxMessages window t m).1 ::
          (rateLimitRun ws maxMessages window
            (checkRateLimit ws maxMessages window t m).2 ts).1,
          (rateLimitRun ws maxMessages window
            (checkRateLimit ws maxMessages window t m).2 ts).2) = _
      rw [hone t]
    rw [hrun]
    refine ⟨?_, ih.2⟩
    intro b hb
    rcases List.mem_cons.mp hb with rfl | hbt
    · rfl
    · exact ih.1 b hbt

/-- Witness for `unregistered_never_rate_limited`: connection 9 has no
entry in an empty manager and is accepted at any time. -/
theorem unregistered_never_rate_limited_witness :
    checkRateLimit 9 10 1 100 emptyManager = (true, emptyManager) :=
  (unregistered_never_rate_limited emptyManager 9 10 1 rfl).1 100

end RaiseMyHand
